import Mathlib

/-!
Verification of the callback bridging subsystem of the kyute/miniqt-sys
binding layer: the three typed signal trampolines (`MQCallback`,
`MQCallback_QString`, `MQCallback_int` in `callback.cpp`) and the paint
interception filter (`MQPaintEventFilter` in `miniqt.cpp`).

The C++ is shallowly embedded: opaque machine words (`uintptr_t`) become
`Nat`; raw function pointers become opaque identifiers (`FnId`, with `0`
standing for the null pointer); the foreign calls performed by a
`trigger`/`eventFilter` body are recorded as an explicit trace of
`CallEvent`s / `PaintCall`s; member functions mutating `this` become
state-passing functions returning the new object alongside the trace,
so the absence of mutation is a provable fact rather than an assumption.
-/

namespace Miniqt

/-- An opaque caller-supplied machine word (`uintptr_t` in the source). -/
abbrev Word := Nat

/-- An opaque raw function-pointer value. The value `0` models the null
pointer; the source never inspects or validates the pointer, it only
stores and calls it. -/
abbrev FnId := Nat

/-- The null function pointer. -/
def nullFnPtr : FnId := 0

/-- A native string value (`QString` payload carried by a string signal). -/
abbrev QStringVal := String

/-- A call performed through a stored trampoline function pointer, recording
the pointer called and the exact arguments passed, one constructor per
trampoline argument shape. -/
inductive CallEvent where
  | callVoid (fn : FnId) (d0 d1 : Word)
  | callQString (fn : FnId) (d0 d1 : Word) (s : QStringVal)
  | callInt (fn : FnId) (d0 d1 : Word) (i : Int)
deriving DecidableEq, Repr

/-- `class MQCallback` (callback.hpp / callback.cpp): two opaque words and a
no-argument function pointer, all set by the constructor. -/
structure MQCallback where
  data0 : Word
  data1 : Word
  callback : FnId
deriving DecidableEq, Repr

/-- `class MQCallback_QString`: two opaque words and a string-argument
function pointer. -/
structure MQCallback_QString where
  data0 : Word
  data1 : Word
  callback : FnId
deriving DecidableEq, Repr

/-- `class MQCallback_int`: two opaque words and an int-argument function
pointer. -/
structure MQCallback_int where
  data0 : Word
  data1 : Word
  callback : FnId
deriving DecidableEq, Repr

/-- `void MQCallback::trigger() { callback(data0, data1); }` — the body
reads the three fields, calls the pointer, and mutates nothing; the
state-passing embedding returns the object together with the trace of
foreign calls the body performs. -/
def MQCallback.trigger (self : MQCallback) : MQCallback × List CallEvent :=
  (self, [CallEvent.callVoid self.callback self.data0 self.data1])

/-- `void MQCallback_QString::trigger(const QString &str)
\x7b callback(data0, data1, str); \x7d`. -/
def MQCallback_QString.trigger (self : MQCallback_QString) (str : QStringVal) :
    MQCallback_QString × List CallEvent :=
  (self, [CallEvent.callQString self.callback self.data0 self.data1 str])

/-- `void MQCallback_int::trigger(int i) { callback(data0, data1, i); }`. -/
def MQCallback_int.trigger (self : MQCallback_int) (i : Int) :
    MQCallback_int × List CallEvent :=
  (self, [CallEvent.callInt self.callback self.data0 self.data1 i])

/-- The payload of a `QPaintEvent` (the region descriptor), opaque to the
filter: it is only passed through by reference to the predicate. -/
structure QPaintEvent where
  payload : Nat
deriving DecidableEq, Repr

/-- A `QObject` receiver as seen through an opaque pointer: its identity
plus whether its dynamic type actually derives `QWidget` (the source
performs an unchecked `static_cast<QWidget *>` on it). -/
structure QObject where
  id : Nat
  isWidget : Bool
deriving DecidableEq, Repr

/-- A `QWidget` handle. The source's `static_cast<QWidget *>(receiver)`
does not change the pointer value and performs no runtime check, so the
cast is the identity on the handle. -/
abbrev QWidget := QObject

/-- `static_cast<QWidget *>(receiver)`: unchecked downcast, identity on
the opaque pointer. -/
def staticCastToQWidget (receiver : QObject) : QWidget := receiver

/-- A `QEvent` as dispatched to an event filter: either an actual paint
event carrying its `QPaintEvent` payload, or any event of another
category (identified by its numeric `QEvent::Type` code). -/
inductive QEvent where
  | Paint (pe : QPaintEvent)
  | Other (code : Nat)
deriving DecidableEq, Repr

/-- One invocation of a paint filter's stored predicate, recording the
exact arguments passed. -/
structure PaintCall where
  d0 : Word
  d1 : Word
  receiver : QWidget
  event : QPaintEvent
deriving DecidableEq, Repr

/-- The predicate shape stored by the paint filter:
`bool (*)(uintptr_t, uintptr_t, QWidget *, const QPaintEvent &)`.
Modelled semantically as a Lean function so that the boolean the filter
returns can be related to the predicate's result. -/
abbrev MQPaintEventCallback := Word → Word → QWidget → QPaintEvent → Bool

/-- `class MQPaintEventFilter` (miniqt.hpp): two opaque words and the
predicate, all set by the constructor, never written afterwards. -/
structure MQPaintEventFilter where
  data0_ : Word
  data1_ : Word
  callback_ : MQPaintEventCallback

/-- `bool MQPaintEventFilter::eventFilter(QObject *receiver, QEvent *event)`
(miniqt.cpp): if the event's type is `QEvent::Paint`, `static_cast` the
event to `QPaintEvent`, call the stored predicate with the stored words,
the receiver blindly cast to `QWidget *`, and the paint event, and return
`true` exactly when the predicate returned `true`; otherwise fall through
and return `false`. The embedding additionally returns the (unchanged)
filter object and the trace of predicate invocations. -/
def MQPaintEventFilter.eventFilter (self : MQPaintEventFilter)
    (receiver : QObject) (event : QEvent) :
    MQPaintEventFilter × Bool × List PaintCall :=
  match event with
  | QEvent.Paint paintEvent =>
      if self.callback_ self.data0_ self.data1_
          (staticCastToQWidget receiver) paintEvent then
        (self, true,
          [⟨self.data0_, self.data1_, staticCastToQWidget receiver, paintEvent⟩])
      else
        (self, false,
          [⟨self.data0_, self.data1_, staticCastToQWidget receiver, paintEvent⟩])
  | QEvent.Other _ => (self, false, [])

/-- Iterated invocation of an int-trampoline's `trigger` slot: fires the
slot once for each listed argument, threading the object state through
and concatenating the traces (models repeated deliveries by the native
dispatch loop to one trampoline). -/
def triggerMany (cb : MQCallback_int) (args : List Int) :
    MQCallback_int × List CallEvent :=
  match args with
  | [] => (cb, [])
  | i :: rest =>
      let fired := cb.trigger i
      let more := triggerMany fired.1 rest
      (more.1, fired.2 ++ more.2)

/-- One trampoline of any of the three variants, paired with the argument
the native signal will carry when it is fired (no argument for the void
variant). -/
inductive FiringItem where
  | voidFire (c : MQCallback)
  | qstringFire (c : MQCallback_QString) (s : QStringVal)
  | intFire (c : MQCallback_int) (i : Int)
deriving DecidableEq, Repr

/-- Fire one trampoline of any variant exactly once through its `trigger`
slot, yielding the trace of foreign calls its body performs. -/
def fireOne : FiringItem → List CallEvent
  | FiringItem.voidFire c => c.trigger.2
  | FiringItem.qstringFire c s => (c.trigger s).2
  | FiringItem.intFire c i => (c.trigger i).2

/-- The `(data0, data1)` pair stored by an item's trampoline. -/
def itemData : FiringItem → Word × Word
  | FiringItem.voidFire c => (c.data0, c.data1)
  | FiringItem.qstringFire c _ => (c.data0, c.data1)
  | FiringItem.intFire c _ => (c.data0, c.data1)

/-- The one call an item's trampoline owes: to its own stored function
pointer, with its own stored words and its own argument. -/
def ownCall : FiringItem → CallEvent
  | FiringItem.voidFire c => CallEvent.callVoid c.callback c.data0 c.data1
  | FiringItem.qstringFire c s => CallEvent.callQString c.callback c.data0 c.data1 s
  | FiringItem.intFire c i => CallEvent.callInt c.callback c.data0 c.data1 i

/-- Fire a collection of trampolines of mixed variants, each exactly once
with its own argument, in list order; result is the concatenated trace of
foreign calls. -/
def fireEach (l : List FiringItem) : List CallEvent :=
  match l with
  | [] => []
  | p :: rest => fireOne p ++ fireEach rest

/-- A heap-allocated trampoline object, as held behind the `QObject *`
returned by the create operations (one constructor per concrete class). -/
inductive QObjectVal where
  | voidCb (c : MQCallback)
  | qstringCb (c : MQCallback_QString)
  | intCb (c : MQCallback_int)
deriving DecidableEq, Repr

/-- The world state surrounding the callback bridge: an allocation counter
and heap of trampoline objects, the caller-provided storage slots holding
paint filters, the native signal connections (source object id, observer
object id), and the event-inspection chains (watched object id, installed
filter slot address). The bridge itself only touches the heap and the
filter slots; connections and chains belong to external collaborators. -/
structure World where
  nextId : Nat
  heap : List (Nat × QObjectVal)
  filterSlots : List (Nat × MQPaintEventFilter)
  connections : List (Nat × Nat)
  filterChains : List (Nat × Nat)

/-- `QObject* MQCallback_new(uintptr_t data0, uintptr_t data1,
MQCallback_ptr callback) { return new MQCallback(data0, data1, callback); }`
— allocate a fresh object whose constructor stores exactly the three
arguments, and return its handle; nothing else in the world is touched. -/
def MQCallback_new (w : World) (data0 data1 : Word) (callback : FnId) :
    Nat × World :=
  (w.nextId,
   { w with nextId := w.nextId + 1
            heap := (w.nextId, QObjectVal.voidCb ⟨data0, data1, callback⟩) :: w.heap })

/-- `QObject* MQCallback_int_new(...) \x7b return new MQCallback_int(data0,
data1, callback); \x7d`. -/
def MQCallback_int_new (w : World) (data0 data1 : Word) (callback : FnId) :
    Nat × World :=
  (w.nextId,
   { w with nextId := w.nextId + 1
            heap := (w.nextId, QObjectVal.intCb ⟨data0, data1, callback⟩) :: w.heap })

/-- `QObject* MQCallback_QString_new(...) \x7b return new MQCallback_QString(
data0, data1, callback); \x7d`. -/
def MQCallback_QString_new (w : World) (data0 data1 : Word) (callback : FnId) :
    Nat × World :=
  (w.nextId,
   { w with nextId := w.nextId + 1
            heap := (w.nextId, QObjectVal.qstringCb ⟨data0, data1, callback⟩) :: w.heap })

/-- `void MQPaintEventFilter_constructor(MQPaintEventFilter *self, ...)
\x7b new (self) MQPaintEventFilter(data0, data1, callback); \x7d` —
placement-new into the caller's own storage at address `self`: stores
exactly the three arguments there, allocates nothing, returns nothing. -/
def MQPaintEventFilter_constructor (w : World) (self : Nat)
    (data0 data1 : Word) (callback : MQPaintEventCallback) : World :=
  { w with filterSlots := (self, ⟨data0, data1, callback⟩) :: w.filterSlots }

/-- `void MQPaintEventFilter_destructor(MQPaintEventFilter *self)
\x7b self->~MQPaintEventFilter(); \x7d` — ends the lifetime of the filter
object in the caller's storage slot. -/
def MQPaintEventFilter_destructor (w : World) (self : Nat) : World :=
  { w with filterSlots := w.filterSlots.filter (fun p => !(p.1 == self)) }

/-- `MQCallback_destructor` (present in callback.cpp only as commented-out
code; deallocation of a trampoline happens through `QObject` deletion):
removes the trampoline object from the heap. -/
def MQCallback_destructor (w : World) (self : Nat) : World :=
  { w with heap := w.heap.filter (fun p => !(p.1 == self)) }

/-- Modelled from the spec: signal-source wiring (§6) — external
widget-wrapper code connects a created trampoline's `trigger` slot to one
native signal of one native source object; not part of this core. -/
def connectSignal (w : World) (src obs : Nat) : World :=
  { w with connections := w.connections ++ [(src, obs)] }

/-- Modelled from the spec: proper unsubscription (§5, §8.5) — the
connection from the source to the observer is removed before the observer
is destroyed. -/
def disconnectSignal (w : World) (src obs : Nat) : World :=
  { w with connections := w.connections.filter (fun p => !(p == (src, obs))) }

/-- Modelled from the spec: event-chain installation (§6) — external code
installs a paint filter on one object's event-inspection chain (most
recently installed filter is consulted first). -/
def installEventFilter (w : World) (watched filterObj : Nat) : World :=
  { w with filterChains := (watched, filterObj) :: w.filterChains }

/-- Modelled from the spec: event-chain removal (§6) — the external
"remove" operation takes the filter back off the chain (to `Detached`). -/
def removeEventFilter (w : World) (watched filterObj : Nat) : World :=
  { w with filterChains := w.filterChains.filter (fun p => !(p == (watched, filterObj))) }

/-- Modelled from the spec: the toolkit's dispatch loop firing an
int-carrying signal on a source object (§2, §4.1) — every trampoline
connected to that source has its `trigger` slot invoked once with the
carried value; each resulting foreign call is tagged with the observer
object id that produced it. -/
def fireIntSignal (w : World) (src : Nat) (i : Int) : List (Nat × CallEvent) :=
  w.connections.flatMap (fun conn =>
    if conn.1 == src then
      match w.heap.lookup conn.2 with
      | some (QObjectVal.intCb c) => (c.trigger i).2.map (fun e => (conn.2, e))
      | _ => []
    else [])

/-- Modelled from the spec: the ordered event-inspection chain (§4.2,
glossary) — each installed filter in turn is given the chance to consume
the event; a filter returning `true` stops the chain. Predicate calls are
tagged with the filter slot address that made them; a slot whose filter
object no longer exists produces nothing. -/
def dispatchToFilters (w : World) (chain : List Nat) (receiver : QObject)
    (event : QEvent) : Bool × List (Nat × PaintCall) :=
  match chain with
  | [] => (false, [])
  | fid :: rest =>
      match w.filterSlots.lookup fid with
      | some f =>
          if (f.eventFilter receiver event).2.1 then
            (true, (f.eventFilter receiver event).2.2.map (fun c => (fid, c)))
          else
            ((dispatchToFilters w rest receiver event).1,
             (f.eventFilter receiver event).2.2.map (fun c => (fid, c))
               ++ (dispatchToFilters w rest receiver event).2)
      | none => dispatchToFilters w rest receiver event

/-- The filters currently installed on `watched`'s event-inspection chain,
most recently installed first. -/
def installedFilters (w : World) (watched : Nat) : List Nat :=
  (w.filterChains.filter (fun p => p.1 == watched)).map (fun p => p.2)

/-- Modelled from the spec: event delivery to a watched object — the event
runs through that object's installed filters before any default handling. -/
def sendEvent (w : World) (watched : Nat) (receiver : QObject)
    (event : QEvent) : Bool × List (Nat × PaintCall) :=
  dispatchToFilters w (installedFilters w watched) receiver event

/-- Whether a filter slot is registered on any event-inspection chain
(the `Attached` state of the spec's two-state machine); `create` must
yield `Detached`. -/
def filterAttached (w : World) (fid : Nat) : Bool :=
  w.filterChains.any (fun p => p.2 == fid)

end Miniqt

namespace Miniqt

/-- Claim C1: feeding a paint event through `eventFilter` invokes the
stored predicate exactly once, with the stored `data0_` and `data1_`, the
receiving object, and the event payload, and the boolean `eventFilter`
returns equals the predicate's return value. -/
theorem eventFilter_paint_calls_predicate_once_and_propagates
    (self : MQPaintEventFilter) (receiver : QObject) (pe : QPaintEvent) :
    (self.eventFilter receiver (QEvent.Paint pe)).2.2
      = [⟨self.data0_, self.data1_, receiver, pe⟩] ∧
    (self.eventFilter receiver (QEvent.Paint pe)).2.1
      = self.callback_ self.data0_ self.data1_ receiver pe := by
  cases h : self.callback_ self.data0_ self.data1_ receiver pe <;>
    simp [MQPaintEventFilter.eventFilter, staticCastToQWidget, h]

/-- Claim C3: feeding an event of any non-paint category through
`eventFilter` returns `false`, invokes the predicate zero times, and
leaves the filter object unchanged (no side effect at all). -/
theorem eventFilter_nonPaint_returns_false_no_call
    (self : MQPaintEventFilter) (receiver : QObject) (code : Nat) :
    self.eventFilter receiver (QEvent.Other code) = (self, false, []) := by
  rfl

/-- Claim C2: for each of the three trampoline variants, one invocation of
`trigger` produces exactly one call to the stored function pointer with
the creation-time `data0` and `data1` and, for the typed variants, the
argument `trigger` received; in particular an int-trampoline built with
`data0 = 7`, `data1 = 42` and fired with `99` calls its entry point once
with `(7, 42, 99)`. -/
theorem trigger_forwards_once_with_stored_data
    (v : MQCallback) (s : MQCallback_QString) (c : MQCallback_int)
    (str : QStringVal) (i : Int) :
    v.trigger.2 = [CallEvent.callVoid v.callback v.data0 v.data1] ∧
    (s.trigger str).2 = [CallEvent.callQString s.callback s.data0 s.data1 str] ∧
    (c.trigger i).2 = [CallEvent.callInt c.callback c.data0 c.data1 i] ∧
    ∀ ep : FnId,
      ((MQCallback_int.mk 7 42 ep).trigger 99).2 = [CallEvent.callInt ep 7 42 99] :=
  ⟨rfl, rfl, rfl, fun _ => rfl⟩

/-- Claim C4 counterexample: on a paint event whose receiver is not a
widget, `eventFilter` does not silently drop the event with the predicate
uninvoked — the predicate is invoked anyway (the source performs an
unchecked `static_cast` with only a TODO comment, no check and no drop). -/
theorem eventFilter_nonwidget_cex :
    (QObject.mk 5 false).isWidget = false ∧
    ((MQPaintEventFilter.mk 0 0 (fun _ _ _ _ => true)).eventFilter
        (QObject.mk 5 false) (QEvent.Paint ⟨0⟩)).2.2 ≠ [] := by
  decide

/-- Claim C4 amended: for every paint event, even one whose receiving
object cannot be downcast to a widget, `eventFilter` invokes the
predicate exactly once, passing the receiver through the unchecked cast
unchanged, and returns the predicate's boolean result; non-widget
receivers are neither detected nor dropped. -/
theorem eventFilter_paint_ignores_widgetness
    (d0 d1 : Word) (pred : MQPaintEventCallback) (receiver : QObject)
    (pe : QPaintEvent) (h : receiver.isWidget = false) :
    ((MQPaintEventFilter.mk d0 d1 pred).eventFilter receiver (QEvent.Paint pe)).2.2
      = [⟨d0, d1, receiver, pe⟩] ∧
    ((MQPaintEventFilter.mk d0 d1 pred).eventFilter receiver (QEvent.Paint pe)).2.1
      = pred d0 d1 receiver pe := by
  cases hp : pred d0 d1 receiver pe <;>
    simp [MQPaintEventFilter.eventFilter, staticCastToQWidget, hp]

/-- Claim C4 amended, witness at a concrete non-widget receiver. -/
theorem eventFilter_paint_ignores_widgetness_witness :
    ((MQPaintEventFilter.mk 1 2 (fun _ _ _ _ => false)).eventFilter
        (QObject.mk 5 false) (QEvent.Paint ⟨7⟩)).2.2
      = [⟨1, 2, QObject.mk 5 false, ⟨7⟩⟩] ∧
    ((MQPaintEventFilter.mk 1 2 (fun _ _ _ _ => false)).eventFilter
        (QObject.mk 5 false) (QEvent.Paint ⟨7⟩)).2.1
      = (fun _ _ _ _ => false : MQPaintEventCallback) 1 2 (QObject.mk 5 false) ⟨7⟩ :=
  eventFilter_paint_ignores_widgetness 1 2 (fun _ _ _ _ => false)
    (QObject.mk 5 false) ⟨7⟩ rfl

/-- Firing one item of any variant yields exactly the one call it owes. -/
theorem fireOne_eq_ownCall (p : FiringItem) : fireOne p = [ownCall p] := by
  cases p <;> rfl

/-- Unfolding lemma: firing a list of trampolines of mixed variants in
order produces the list of their own calls, one per trampoline. -/
theorem fireEach_eq_map (l : List FiringItem) :
    fireEach l = l.map ownCall := by
  induction l with
  | nil => rfl
  | cons p rest ih => simp [fireEach, fireOne_eq_ownCall, ih]

/-- Claim C5: firing a collection of trampolines of any of the three
variants, created with distinct data pairs, each exactly once in an
arbitrary order, yields exactly one call per trampoline — each to that
trampoline's own function pointer with its own `(data0, data1)` pair and
argument, `N` calls in total — and each trampoline's `trigger` output is
the same singleton regardless of the others or of the order. -/
theorem distinct_trampolines_no_cross_delivery
    (l ord : List FiringItem)
    (hdist : l.Pairwise (fun a b => itemData a ≠ itemData b))
    (hperm : List.Perm ord l) :
    List.Perm (fireEach ord) (l.map ownCall) ∧
    (fireEach ord).length = l.length ∧
    ∀ p ∈ ord, fireOne p = [ownCall p] := by
  refine ⟨?_, ?_, fun p _ => fireOne_eq_ownCall p⟩
  · rw [fireEach_eq_map]
    exact hperm.map _
  · rw [fireEach_eq_map, List.length_map]
    exact hperm.length_eq

/-- Claim C5, witness: one trampoline of each variant, with distinct data
pairs, fired in reversed order. -/
theorem distinct_trampolines_no_cross_delivery_witness :
    List.Perm
      (fireEach [FiringItem.intFire ⟨5, 6, 12⟩ 9,
        FiringItem.qstringFire ⟨3, 4, 11⟩ "s", FiringItem.voidFire ⟨1, 2, 10⟩])
      ([FiringItem.voidFire ⟨1, 2, 10⟩, FiringItem.qstringFire ⟨3, 4, 11⟩ "s",
        FiringItem.intFire ⟨5, 6, 12⟩ 9].map ownCall) ∧
    (fireEach [FiringItem.intFire ⟨5, 6, 12⟩ 9,
        FiringItem.qstringFire ⟨3, 4, 11⟩ "s", FiringItem.voidFire ⟨1, 2, 10⟩]).length
      = ([FiringItem.voidFire ⟨1, 2, 10⟩, FiringItem.qstringFire ⟨3, 4, 11⟩ "s",
        FiringItem.intFire ⟨5, 6, 12⟩ 9]).length ∧
    ∀ p ∈ [FiringItem.intFire ⟨5, 6, 12⟩ 9,
        FiringItem.qstringFire ⟨3, 4, 11⟩ "s", FiringItem.voidFire ⟨1, 2, 10⟩],
      fireOne p = [ownCall p] :=
  distinct_trampolines_no_cross_delivery
    [FiringItem.voidFire ⟨1, 2, 10⟩, FiringItem.qstringFire ⟨3, 4, 11⟩ "s",
      FiringItem.intFire ⟨5, 6, 12⟩ 9]
    [FiringItem.intFire ⟨5, 6, 12⟩ 9, FiringItem.qstringFire ⟨3, 4, 11⟩ "s",
      FiringItem.voidFire ⟨1, 2, 10⟩]
    (by decide) (by decide)

/-- Claim C8: the stored fields are never modified after construction —
every `trigger` and every `eventFilter` invocation returns the object
unchanged, and an arbitrary sequence of deliveries to one trampoline
passes the construction-time words through unmodified on every call. -/
theorem stored_fields_immutable_across_invocations
    (cb : MQCallback_int) (args : List Int)
    (v : MQCallback) (s : MQCallback_QString) (str : QStringVal) (i : Int)
    (f : MQPaintEventFilter) (receiver : QObject) (event : QEvent) :
    triggerMany cb args
      = (cb, args.map (fun a => CallEvent.callInt cb.callback cb.data0 cb.data1 a)) ∧
    v.trigger.1 = v ∧
    (s.trigger str).1 = s ∧
    (cb.trigger i).1 = cb ∧
    (f.eventFilter receiver event).1 = f := by
  refine ⟨?_, rfl, rfl, rfl, ?_⟩
  · induction args with
    | nil => rfl
    | cons a rest ih => simp [triggerMany, MQCallback_int.trigger, ih]
  · cases event with
    | Paint pe =>
        simp only [MQPaintEventFilter.eventFilter]
        split <;> rfl
    | Other code => rfl

/-- Claim C6: the create operations have no subscription or installation
side effect — each trampoline `_new` and the filter constructor leave the
signal connections and the event-inspection chains exactly as they were,
and the constructed filter's attachment state is unchanged (fresh storage
stays `Detached`); any wiring happens in external code afterwards. -/
theorem create_has_no_subscription_side_effect
    (w : World) (d0 d1 : Word) (f : FnId) (a : Nat) (pred : MQPaintEventCallback) :
    (MQCallback_new w d0 d1 f).2.connections = w.connections ∧
    (MQCallback_new w d0 d1 f).2.filterChains = w.filterChains ∧
    (MQCallback_int_new w d0 d1 f).2.connections = w.connections ∧
    (MQCallback_int_new w d0 d1 f).2.filterChains = w.filterChains ∧
    (MQCallback_QString_new w d0 d1 f).2.connections = w.connections ∧
    (MQCallback_QString_new w d0 d1 f).2.filterChains = w.filterChains ∧
    (MQPaintEventFilter_constructor w a d0 d1 pred).connections = w.connections ∧
    (MQPaintEventFilter_constructor w a d0 d1 pred).filterChains = w.filterChains ∧
    filterAttached (MQPaintEventFilter_constructor w a d0 d1 pred) a
      = filterAttached w a :=
  ⟨rfl, rfl, rfl, rfl, rfl, rfl, rfl, rfl, rfl⟩

/-- Claim C7: creation never fails and validates nothing — for every
input, including the null function pointer, each create operation
returns a handle behind which exactly the three supplied values are
stored, with no error path and no defensive branch. -/
theorem create_total_no_validation
    (w : World) (d0 d1 : Word) (f : FnId) (a : Nat) (pred : MQPaintEventCallback) :
    (MQCallback_new w d0 d1 f).2.heap.lookup (MQCallback_new w d0 d1 f).1
      = some (QObjectVal.voidCb ⟨d0, d1, f⟩) ∧
    (MQCallback_int_new w d0 d1 f).2.heap.lookup (MQCallback_int_new w d0 d1 f).1
      = some (QObjectVal.intCb ⟨d0, d1, f⟩) ∧
    (MQCallback_QString_new w d0 d1 f).2.heap.lookup
        (MQCallback_QString_new w d0 d1 f).1
      = some (QObjectVal.qstringCb ⟨d0, d1, f⟩) ∧
    (MQCallback_new w d0 d1 nullFnPtr).2.heap.lookup
        (MQCallback_new w d0 d1 nullFnPtr).1
      = some (QObjectVal.voidCb ⟨d0, d1, nullFnPtr⟩) ∧
    (MQPaintEventFilter_constructor w a d0 d1 pred).filterSlots.lookup a
      = some ⟨d0, d1, pred⟩ := by
  refine ⟨?_, ?_, ?_, ?_, ?_⟩ <;>
    simp [MQCallback_new, MQCallback_int_new, MQCallback_QString_new,
      MQPaintEventFilter_constructor, List.lookup]

/-- Claim C10: `MQPaintEventFilter_constructor` initializes the caller's
own storage in place — the allocation counter and heap are untouched and
the slot now holds exactly the three supplied values — while each
trampoline create allocates a fresh heap object and returns its handle. -/
theorem filter_constructor_in_place_trampoline_new_allocates
    (w : World) (a : Nat) (d0 d1 : Word) (pred : MQPaintEventCallback) (f : FnId) :
    (MQPaintEventFilter_constructor w a d0 d1 pred).nextId = w.nextId ∧
    (MQPaintEventFilter_constructor w a d0 d1 pred).heap = w.heap ∧
    (MQPaintEventFilter_constructor w a d0 d1 pred).filterSlots.lookup a
      = some ⟨d0, d1, pred⟩ ∧
    (MQCallback_int_new w d0 d1 f).1 = w.nextId ∧
    (MQCallback_int_new w d0 d1 f).2.nextId = w.nextId + 1 ∧
    (MQCallback_int_new w d0 d1 f).2.heap
      = (w.nextId, QObjectVal.intCb ⟨d0, d1, f⟩) :: w.heap ∧
    (MQCallback_new w d0 d1 f).2.nextId = w.nextId + 1 ∧
    (MQCallback_QString_new w d0 d1 f).2.nextId = w.nextId + 1 := by
  refine ⟨rfl, rfl, ?_, rfl, rfl, rfl, rfl, rfl⟩
  simp [MQPaintEventFilter_constructor, List.lookup]

/-- Erasing every entry of an association list whose key is `k` makes a
subsequent lookup of `k` fail. -/
theorem lookup_filter_erase_key {α : Type} (l : List (Nat × α)) (k : Nat) :
    (l.filter (fun p => !(p.1 == k))).lookup k = none := by
  simp
  exact fun a b _ h hk => h hk.symm

/-- Every tagged call produced by firing an int signal comes from an
observer that is a live int-trampoline in the heap. -/
theorem fireIntSignal_tag_live (w : World) (src : Nat) (i : Int)
    (x : Nat × CallEvent) (hx : x ∈ fireIntSignal w src i) :
    ∃ c, w.heap.lookup x.1 = some (QObjectVal.intCb c) := by
  rw [fireIntSignal, List.mem_flatMap] at hx
  obtain ⟨conn, _, hxin⟩ := hx
  by_cases hs : (conn.1 == src) = true
  · rw [if_pos hs] at hxin
    cases hl : w.heap.lookup conn.2 with
    | some v =>
        cases v with
        | intCb c =>
            rw [hl] at hxin
            simp only [MQCallback_int.trigger, List.map_cons, List.map_nil,
              List.mem_singleton] at hxin
            subst hxin
            exact ⟨c, hl⟩
        | voidCb c => rw [hl] at hxin; cases hxin
        | qstringCb c => rw [hl] at hxin; cases hxin
    | none => rw [hl] at hxin; cases hxin
  · rw [if_neg hs] at hxin
    cases hxin

/-- Every tagged predicate call produced by running an event-inspection
chain comes from a filter slot that still holds a live filter object. -/
theorem dispatchToFilters_tag_live (w : World) (chain : List Nat)
    (receiver : QObject) (event : QEvent) (x : Nat × PaintCall)
    (hx : x ∈ (dispatchToFilters w chain receiver event).2) :
    ∃ f, w.filterSlots.lookup x.1 = some f := by
  induction chain with
  | nil => cases hx
  | cons fid rest ih =>
      rw [dispatchToFilters] at hx
      split at hx
      · rename_i f hl
        split at hx
        · simp only [List.mem_map] at hx
          obtain ⟨c, _, rfl⟩ := hx
          exact ⟨f, hl⟩
        · simp only [List.mem_append, List.mem_map] at hx
          rcases hx with ⟨c, _, rfl⟩ | hrest
          · exact ⟨f, hl⟩
          · exact ih hrest
      · exact ih hx

/-- Claim C9: after proper unsubscription/uninstallation followed by
destruction, a subsequent firing of the previously attached source
delivers zero calls to the destroyed trampoline's entry point, and a
subsequent event sent through the previously watched object's chain
delivers zero calls to the destroyed filter's predicate. -/
theorem no_dangling_dispatch_after_destroy
    (w : World) (src obs : Nat) (i : Int)
    (watched fid : Nat) (receiver : QObject) (event : QEvent) :
    (fireIntSignal (MQCallback_destructor (disconnectSignal w src obs) obs)
        src i).filter (fun p => p.1 == obs) = [] ∧
    ((sendEvent (MQPaintEventFilter_destructor (removeEventFilter w watched fid) fid)
        watched receiver event).2).filter (fun p => p.1 == fid) = [] := by
  constructor
  · rw [List.filter_eq_nil_iff]
    intro x hx hobs
    obtain ⟨c, hc⟩ := fireIntSignal_tag_live _ src i x hx
    rw [show x.1 = obs from by simpa using hobs] at hc
    rw [show (MQCallback_destructor (disconnectSignal w src obs) obs).heap
          = (disconnectSignal w src obs).heap.filter (fun p => !(p.1 == obs)) from rfl,
        lookup_filter_erase_key] at hc
    cases hc
  · rw [List.filter_eq_nil_iff]
    intro x hx hfid
    obtain ⟨f, hf⟩ := dispatchToFilters_tag_live _ _ receiver event x hx
    rw [show x.1 = fid from by simpa using hfid] at hf
    rw [show (MQPaintEventFilter_destructor (removeEventFilter w watched fid) fid).filterSlots
          = (removeEventFilter w watched fid).filterSlots.filter (fun p => !(p.1 == fid)) from rfl,
        lookup_filter_erase_key] at hf
    cases hf

end Miniqt
